import Mathlib

/-!
Verification of the paginated media-grid browsing model implemented by the
`ImageGrid` class in `_test/image_viewer.py` (3x3 grid, 9 images per page)
and its near-identical fork `_test/widgets/image_viewer_widget.py`
(4x3 grid, 12 images per page).  Both files carry the same pagination
logic, so the model below is parameterised by `images_per_page` and covers
both instances.

The embedding mirrors the Python code:
* `image_paths`, `current_page`, `images_per_page` are the fields of the
  class that carry pagination state.
* `open_images` models the tail of `ImageGrid.open_images` (the part after
  the file dialog returns `paths`): the body runs only `if paths:` is
  truthy, i.e. only when the list is nonempty.
* `total_pages_idx` is the `total_pages` local computed in
  `update_button_states` (`0` without images, else
  `math.ceil(total_images / images_per_page) - 1`, the zero-based index of
  the last page).
* `canGoNext` / `canGoPrev` are the enabled states that
  `update_button_states` assigns to the Next/End and Home/Prev buttons.
* `next_page`, `prev_page`, `first_page`, `last_page` model the navigation
  slots; `next_page` recomputes `math.ceil(total_images/images_per_page)-1`
  without the empty-collection guard, so in Python that bound is `-1` for an
  empty collection, which we reproduce by computing in `Int`.
* `cellContent` models the per-cell branch of `display_page`: cell `i` of
  the current page shows `image_paths[current_page*images_per_page + i]`
  when that index is in range, and is cleared (the empty sentinel, here
  `none`) otherwise.
* Python's `math.ceil(a / b)` on the nonnegative integers involved equals
  integer ceiling division `(a + b - 1) / b`, embedded as `ceil_div`.
-/

namespace ImageViewer

/-- A media item is an opaque file path (the spec's MediaItem). -/
abbrev MediaItem := String

/-- Integer ceiling division, the value of `math.ceil(n / cap)` for
nonnegative integers `n` and positive `cap`. -/
def ceil_div (n cap : Nat) : Nat := (n + cap - 1) / cap

/-- The pagination state carried by the `ImageGrid` class: the list of
selected paths, the zero-based current page, and the fixed page capacity
(`rows * cols`; 9 in `image_viewer.py`, 12 in `image_viewer_widget.py`). -/
structure ImageGrid where
  image_paths : List MediaItem
  current_page : Nat
  images_per_page : Nat
deriving DecidableEq

/-- Grid rows of the `image_viewer.py` instance (3x3 grid). -/
def rows : Nat := 3

/-- Grid columns of the `image_viewer.py` instance. -/
def cols : Nat := 3

/-- The fresh state built by `ImageGrid.__init__`: no images, page 0. -/
def initGrid (cap : Nat) : ImageGrid :=
  { image_paths := [], current_page := 0, images_per_page := cap }

/-- `ImageGrid.open_images` after the file dialog returns `paths`:
`if paths:` (nonempty) the collection is replaced and the page reset to 0;
an empty `paths` list leaves the state untouched. -/
def open_images (s : ImageGrid) (paths : List MediaItem) : ImageGrid :=
  if paths = [] then s
  else { s with image_paths := paths, current_page := 0 }

/-- The `total_pages` local of `ImageGrid.update_button_states`: `0` when
there are no images, else `math.ceil(total_images / images_per_page) - 1`,
the zero-based index of the last page. -/
def total_pages_idx (s : ImageGrid) : Int :=
  if s.image_paths.length = 0 then 0
  else (ceil_div s.image_paths.length s.images_per_page : Int) - 1

/-- Enabled state of the Home and Prev buttons in `update_button_states`:
`has_images and self.current_page > 0`. -/
def canGoPrev (s : ImageGrid) : Bool :=
  decide (0 < s.image_paths.length) && decide (0 < s.current_page)

/-- Enabled state of the Next and End buttons in `update_button_states`:
`has_images and self.current_page < total_pages`. -/
def canGoNext (s : ImageGrid) : Bool :=
  decide (0 < s.image_paths.length) &&
    decide ((s.current_page : Int) < total_pages_idx s)

/-- `ImageGrid.next_page`: recomputes
`math.ceil(total_images / images_per_page) - 1` (in Python this is `-1` on
an empty collection, hence the `Int` computation) and increments
`current_page` only when strictly below that bound. -/
def next_page (s : ImageGrid) : ImageGrid :=
  if (s.current_page : Int) <
      (ceil_div s.image_paths.length s.images_per_page : Int) - 1 then
    { s with current_page := s.current_page + 1 }
  else s

/-- `ImageGrid.prev_page`: decrements `current_page` only when it is
positive. -/
def prev_page (s : ImageGrid) : ImageGrid :=
  if 0 < s.current_page then { s with current_page := s.current_page - 1 }
  else s

/-- `ImageGrid.first_page`: unconditionally jumps to page 0. -/
def first_page (s : ImageGrid) : ImageGrid :=
  { s with current_page := 0 }

/-- `ImageGrid.last_page`: when images exist, jumps to
`math.ceil(total_images / images_per_page) - 1` (which is `≥ 0` there). -/
def last_page (s : ImageGrid) : ImageGrid :=
  if 0 < s.image_paths.length then
    { s with
        current_page := ceil_div s.image_paths.length s.images_per_page - 1 }
  else s

/-- The per-cell branch of `ImageGrid.display_page`: cell `i` shows
`image_paths[start_index + i]` with `start_index =
current_page * images_per_page` when that index is `< len(image_paths)`,
and is cleared (empty sentinel `none`) otherwise. -/
def cellContent (s : ImageGrid) (i : Nat) : Option MediaItem :=
  if s.current_page * s.images_per_page + i < s.image_paths.length then
    s.image_paths.get? (s.current_page * s.images_per_page + i)
  else none

/-- The number of pages the grid exposes: pages are addressed
`0 .. total_pages_idx`, so the count is `total_pages_idx + 1` when images
exist and `0` otherwise. -/
def pageCount (s : ImageGrid) : Nat :=
  if s.image_paths.length = 0 then 0 else (total_pages_idx s + 1).toNat

/-- Modelled from the spec: the repository source has no `goToPage`
operation (the viewers only expose first/prev/next/last navigation); the
spec defines `goToPage(n)` as setting
`currentPage = clamp(n, 0, totalPages - 1)` when `totalPages > 0` and as a
no-op otherwise. -/
def goToPage (s : ImageGrid) (n : Int) : ImageGrid :=
  if 0 < pageCount s then
    { s with
        current_page := (min (max n 0) ((pageCount s : Int) - 1)).toNat }
  else s

/-- States reachable from a fresh grid of capacity `cap` through the
operations of the component (including the spec-modelled `goToPage`). -/
inductive Reachable (cap : Nat) : ImageGrid → Prop where
  | init : Reachable cap (initGrid cap)
  | step_open (s : ImageGrid) (paths : List MediaItem) :
      Reachable cap s → Reachable cap (open_images s paths)
  | step_next (s : ImageGrid) :
      Reachable cap s → Reachable cap (next_page s)
  | step_prev (s : ImageGrid) :
      Reachable cap s → Reachable cap (prev_page s)
  | step_first (s : ImageGrid) :
      Reachable cap s → Reachable cap (first_page s)
  | step_last (s : ImageGrid) :
      Reachable cap s → Reachable cap (last_page s)
  | step_goto (s : ImageGrid) (n : Int) :
      Reachable cap s → Reachable cap (goToPage s n)

/-- The state invariant: with no images the grid sits on page 0, and the
current page never exceeds the last page index. -/
def Inv (s : ImageGrid) : Prop :=
  (s.image_paths = [] → s.current_page = 0) ∧
  s.current_page ≤ max (pageCount s - 1) 0

/-- A twenty-item collection, the concrete scenario of the spec. -/
def items20 : List MediaItem :=
  ["p00", "p01", "p02", "p03", "p04", "p05", "p06", "p07", "p08", "p09",
   "p10", "p11", "p12", "p13", "p14", "p15", "p16", "p17", "p18", "p19"]

/-- The state reached in the concrete 3x3 scenario: open 20 images on a
fresh 3x3 grid and press Next twice. -/
def scenario_state : ImageGrid :=
  next_page (next_page (open_images (initGrid (rows * cols)) items20))

/-! ### Helper lemmas -/

lemma ceil_div_zero (cap : Nat) : ceil_div 0 cap = 0 := by
  unfold ceil_div
  rcases Nat.eq_zero_or_pos cap with h | h
  · subst h; rfl
  · exact Nat.div_eq_of_lt (by omega)

lemma ceil_div_pos {n cap : Nat} (hn : 0 < n) (hcap : 0 < cap) :
    0 < ceil_div n cap := by
  unfold ceil_div
  exact (Nat.one_le_div_iff hcap).mpr (by omega)

lemma ceil_div_spec (n cap : Nat) (hcap : 0 < cap) :
    n ≤ cap * ceil_div n cap ∧
    (0 < n → cap * (ceil_div n cap - 1) < n) := by
  have h1 := Nat.div_add_mod (n + cap - 1) cap
  have h2 := Nat.mod_lt (n + cap - 1) hcap
  have hpred : cap * (ceil_div n cap - 1) = cap * ceil_div n cap - cap := by
    rcases Nat.eq_zero_or_pos (ceil_div n cap) with h | h
    · simp [h]
    · have := Nat.mul_pred cap (ceil_div n cap)
      simpa [Nat.pred_eq_sub_one] using this
  unfold ceil_div at *
  omega

lemma pageCount_eq (s : ImageGrid) :
    pageCount s = ceil_div s.image_paths.length s.images_per_page := by
  unfold pageCount total_pages_idx
  by_cases h : s.image_paths.length = 0
  · simp [h, ceil_div_zero]
  · simp only [h, if_neg, ite_false]
    omega

lemma goToPage_current (s : ImageGrid) (n : Int) (h : 0 < pageCount s) :
    goToPage s n =
      { s with
          current_page := (min (max n 0) ((pageCount s : Int) - 1)).toNat } := by
  unfold goToPage
  rw [if_pos h]

lemma goToPage_zero (s : ImageGrid) (n : Int) (h : pageCount s = 0) :
    goToPage s n = s := by
  unfold goToPage
  rw [if_neg (by omega)]

lemma pageCount_goToPage (s : ImageGrid) (n : Int) :
    pageCount (goToPage s n) = pageCount s := by
  unfold goToPage
  split <;> rfl

/-- The central reachability invariant: a reachable state has the grid
capacity it was created with, sits on page 0 whenever the collection is
empty, and otherwise its page never exceeds the last page index. -/
lemma reachable_bound (cap : Nat) (hcap : 0 < cap) (s : ImageGrid)
    (h : Reachable cap s) :
    s.images_per_page = cap ∧
    (s.image_paths = [] → s.current_page = 0) ∧
    (s.image_paths ≠ [] →
      s.current_page + 1 ≤ ceil_div s.image_paths.length cap) := by
  induction h with
  | init => exact ⟨rfl, fun _ => rfl, fun hne => absurd rfl hne⟩
  | step_open s paths hs ih =>
      unfold open_images
      by_cases hp : paths = []
      · rw [if_pos hp]; exact ih
      · rw [if_neg hp]
        refine ⟨ih.1, fun he => rfl, fun hne => ?_⟩
        have hlen : 0 < paths.length := List.length_pos.mpr hp
        simpa using ceil_div_pos hlen hcap
  | step_next s hs ih =>
      obtain ⟨hc, he, hb⟩ := ih
      unfold next_page
      by_cases hg : (s.current_page : Int) <
          (ceil_div s.image_paths.length s.images_per_page : Int) - 1
      · rw [if_pos hg]
        refine ⟨hc, fun hemp => ?_, fun hne => ?_⟩
        · exfalso
          rw [hemp] at hg
          simp [ceil_div_zero] at hg
          omega
        · rw [hc] at hg
          simp only
          omega
      · rw [if_neg hg]; exact ⟨hc, he, hb⟩
  | step_prev s hs ih =>
      obtain ⟨hc, he, hb⟩ := ih
      unfold prev_page
      by_cases hg : 0 < s.current_page
      · rw [if_pos hg]
        refine ⟨hc, fun hemp => ?_, fun hne => ?_⟩
        · have := he hemp; omega
        · have := hb hne; simp only; omega
      · rw [if_neg hg]; exact ⟨hc, he, hb⟩
  | step_first s hs ih =>
      obtain ⟨hc, he, hb⟩ := ih
      unfold first_page
      refine ⟨hc, fun _ => rfl, fun hne => ?_⟩
      have hlen : 0 < s.image_paths.length := List.length_pos.mpr hne
      simpa using ceil_div_pos hlen hcap
  | step_last s hs ih =>
      obtain ⟨hc, he, hb⟩ := ih
      unfold last_page
      by_cases hg : 0 < s.image_paths.length
      · rw [if_pos hg]
        refine ⟨hc, fun hemp => ?_, fun hne => ?_⟩
        · exfalso
          rw [hemp] at hg
          simp at hg
        · have hpos : 0 < ceil_div s.image_paths.length cap :=
            ceil_div_pos hg hcap
          rw [hc]
          simp only
          omega
      · rw [if_neg hg]; exact ⟨hc, he, hb⟩
  | step_goto s n hs ih =>
      obtain ⟨hc, he, hb⟩ := ih
      by_cases hg : 0 < pageCount s
      · rw [goToPage_current s n hg]
        have hne : s.image_paths ≠ [] := by
          intro hemp
          rw [pageCount_eq, hemp] at hg
          simp [ceil_div_zero] at hg
        refine ⟨hc, fun hemp => absurd hemp hne, fun _ => ?_⟩
        have hceil : pageCount s = ceil_div s.image_paths.length cap := by
          rw [pageCount_eq, hc]
        have hmin : min (max n 0) ((pageCount s : Int) - 1) ≤
            (pageCount s : Int) - 1 := min_le_right _ _
        simp only
        omega
      · rw [goToPage_zero s n (by omega)]
        exact ⟨hc, he, hb⟩

lemma inv_of_reachable (cap : Nat) (hcap : 0 < cap) (s : ImageGrid)
    (h : Reachable cap s) : Inv s := by
  obtain ⟨hc, he, hb⟩ := reachable_bound cap hcap s h
  refine ⟨he, ?_⟩
  by_cases hp : s.image_paths = []
  · rw [he hp]; omega
  · have := hb hp
    rw [pageCount_eq, hc]
    omega

/-! ### Claims -/

/-- C1. For every grid state with positive page capacity, the number of
pages exposed by the grid (pages are addressed `0 .. total_pages_idx`, so
the count is the last page index plus one, and `0` without images) equals
`ceil(N / pageCapacity)` computed by integer ceiling division: it is given
by the formula `(N + cap - 1) / cap`, it is `0` when the collection is
empty, and for a nonempty collection it is the unique `p` with
`cap * (p - 1) < N ≤ cap * p`. -/
theorem c1_total_page_count (s : ImageGrid) (hcap : 0 < s.images_per_page) :
    pageCount s =
      (s.image_paths.length + s.images_per_page - 1) / s.images_per_page ∧
    (s.image_paths.length = 0 → pageCount s = 0) ∧
    (0 < s.image_paths.length →
      s.image_paths.length ≤ s.images_per_page * pageCount s ∧
      s.images_per_page * (pageCount s - 1) < s.image_paths.length) := by
  have hpc := pageCount_eq s
  have hspec := ceil_div_spec s.image_paths.length s.images_per_page hcap
  refine ⟨by rw [hpc]; rfl, fun h => ?_, fun h => ?_⟩
  · rw [hpc, h, ceil_div_zero]
  · rw [hpc]
    exact ⟨hspec.1, hspec.2 h⟩

/-- Witness for C1 at the 20-item, capacity-9 instance: 3 pages. -/
theorem c1_total_page_count_witness : pageCount ⟨items20, 0, 9⟩ = 3 := by
  have h := (c1_total_page_count ⟨items20, 0, 9⟩ (by decide)).1
  rw [h]
  decide

/-- C2. For every state and every cell index `i` in `[0, pageCapacity)`,
`cellContent` returns the item at absolute position
`current_page * images_per_page + i` when that position is strictly below
the collection length, and the empty sentinel `none` otherwise. -/
theorem c2_cell_content (s : ImageGrid) (i : Nat)
    (hi : i < s.images_per_page) :
    (∀ h : s.current_page * s.images_per_page + i < s.image_paths.length,
      cellContent s i =
        some (s.image_paths.get
          ⟨s.current_page * s.images_per_page + i, h⟩)) ∧
    (s.image_paths.length ≤ s.current_page * s.images_per_page + i →
      cellContent s i = none) := by
  constructor
  · intro h
    unfold cellContent
    rw [if_pos h, List.get?_eq_get h]
  · intro h
    unfold cellContent
    rw [if_neg (by omega)]

/-- Witness for C2: on page 2 of the 20-item collection, cell 1 shows item
19 and cell 5 is empty. -/
theorem c2_cell_content_witness :
    cellContent ⟨items20, 2, 9⟩ 1 = some "p19" ∧
    cellContent ⟨items20, 2, 9⟩ 5 = none := by
  constructor
  · have h := (c2_cell_content ⟨items20, 2, 9⟩ 1 (by decide)).1 (by decide)
    rw [h]
    decide
  · exact (c2_cell_content ⟨items20, 2, 9⟩ 5 (by decide)).2 (by decide)

/-- C3 counterexample. The claim says `setCollection(items)` replaces the
collection and resets the page for every `items`, including `[]`.  But
`open_images` runs its body only under the truthiness test `if paths:`, so
with a nonempty prior collection and page 1, passing the empty list leaves
both the collection and the page untouched instead of replacing them. -/
theorem c3_set_collection_cex :
    (open_images ⟨["p00"], 1, 9⟩ []).image_paths = ["p00"] ∧
    (open_images ⟨["p00"], 1, 9⟩ []).current_page = 1 := by
  exact ⟨rfl, rfl⟩

/-- C3 amended. `setCollection(items)` replaces the collection with `items`
and resets `currentPage` to 0 when `items` is nonempty; when `items` is
empty the call is accepted without error but is a no-op that leaves the
previous collection and page unchanged. -/
theorem c3_set_collection (s : ImageGrid) (items : List MediaItem) :
    (items ≠ [] →
      open_images s items =
        { s with image_paths := items, current_page := 0 }) ∧
    (items = [] → open_images s items = s) := by
  constructor
  · intro h
    unfold open_images
    rw [if_neg h]
  · intro h
    unfold open_images
    rw [if_pos h]

/-- Witness for C3 (amended): a nonempty list replaces, the empty list is a
no-op. -/
theorem c3_set_collection_witness :
    open_images ⟨["p00"], 1, 9⟩ ["a", "b"] = ⟨["a", "b"], 0, 9⟩ ∧
    open_images ⟨["p00"], 1, 9⟩ [] = ⟨["p00"], 1, 9⟩ :=
  ⟨(c3_set_collection ⟨["p00"], 1, 9⟩ ["a", "b"]).1 (by decide),
   (c3_set_collection ⟨["p00"], 1, 9⟩ []).2 rfl⟩

/-- C4. In every reachable state, `canGoNext` is true exactly when
`currentPage < totalPages - 1` (with `totalPages` the page count) and
`canGoPrev` is true exactly when `currentPage > 0`; both are false when the
collection is empty. -/
theorem c4_nav_queries (cap : Nat) (s : ImageGrid) (hcap : 0 < cap)
    (h : Reachable cap s) :
    (canGoNext s = true ↔
      (s.current_page : Int) < (pageCount s : Int) - 1) ∧
    (canGoPrev s = true ↔ 0 < s.current_page) ∧
    (s.image_paths = [] → canGoNext s = false ∧ canGoPrev s = false) := by
  obtain ⟨hc, he, hb⟩ := reachable_bound cap hcap s h
  have hpc := pageCount_eq s
  by_cases hp : s.image_paths.length = 0
  · have hnil : s.image_paths = [] := List.length_eq_zero.mp hp
    have hcur : s.current_page = 0 := he hnil
    refine ⟨?_, ?_, fun _ => ?_⟩
    · unfold canGoNext
      simp only [hp]
      rw [hpc, hp, ceil_div_zero]
      simp
      omega
    · unfold canGoPrev
      simp [hp, hcur]
    · unfold canGoNext canGoPrev
      simp [hp]
  · refine ⟨?_, ?_, fun hnil => absurd (by rw [hnil]; rfl) hp⟩
    · unfold canGoNext total_pages_idx
      rw [hpc]
      simp only [hp, if_neg, ite_false, Bool.and_eq_true, decide_eq_true_iff]
      omega
    · unfold canGoPrev
      simp only [Bool.and_eq_true, decide_eq_true_iff]
      omega

/-- Witness for C4 at the reachable empty initial state: both navigation
queries are false. -/
theorem c4_nav_queries_witness :
    canGoNext (initGrid 9) = false ∧ canGoPrev (initGrid 9) = false :=
  (c4_nav_queries 9 (initGrid 9) (by decide) Reachable.init).2.2 rfl

/-- C5. `next_page` increments the page by exactly one when the state is
not at the last page and otherwise returns the state unchanged;
`prev_page` decrements by exactly one when the page is positive and
otherwise returns the state unchanged; neither ever changes the collection
or the capacity (no wrap-around, no error). -/
theorem c5_next_prev_step (s : ImageGrid) :
    ((s.current_page : Int) < (pageCount s : Int) - 1 →
      next_page s = { s with current_page := s.current_page + 1 }) ∧
    ((pageCount s : Int) - 1 ≤ (s.current_page : Int) → next_page s = s) ∧
    (0 < s.current_page →
      prev_page s = { s with current_page := s.current_page - 1 }) ∧
    (s.current_page = 0 → prev_page s = s) ∧
    (next_page s).image_paths = s.image_paths ∧
    (next_page s).images_per_page = s.images_per_page ∧
    (prev_page s).image_paths = s.image_paths ∧
    (prev_page s).images_per_page = s.images_per_page := by
  have hpc := pageCount_eq s
  refine ⟨fun h => ?_, fun h => ?_, fun h => ?_, fun h => ?_, ?_, ?_, ?_, ?_⟩
  · unfold next_page
    rw [if_pos (by rw [← hpc]; exact h)]
  · unfold next_page
    rw [if_neg (by rw [← hpc]; omega)]
  · unfold prev_page
    rw [if_pos h]
  · unfold prev_page
    rw [if_neg (by omega)]
  · unfold next_page; split <;> rfl
  · unfold next_page; split <;> rfl
  · unfold prev_page; split <;> rfl
  · unfold prev_page; split <;> rfl

/-- Witness for C5 on the 20-item, capacity-9 instance: Next steps
0 → 1, Next on the last page 2 is a no-op, Prev steps 1 → 0, Prev on page 0
is a no-op. -/
theorem c5_next_prev_step_witness :
    next_page ⟨items20, 0, 9⟩ = ⟨items20, 1, 9⟩ ∧
    next_page ⟨items20, 2, 9⟩ = ⟨items20, 2, 9⟩ ∧
    prev_page ⟨items20, 1, 9⟩ = ⟨items20, 0, 9⟩ ∧
    prev_page ⟨items20, 0, 9⟩ = ⟨items20, 0, 9⟩ :=
  ⟨(c5_next_prev_step ⟨items20, 0, 9⟩).1 (by decide),
   (c5_next_prev_step ⟨items20, 2, 9⟩).2.1 (by decide),
   (c5_next_prev_step ⟨items20, 1, 9⟩).2.2.1 (by decide),
   (c5_next_prev_step ⟨items20, 0, 9⟩).2.2.2.1 rfl⟩

/-- C6. The spec-modelled `goToPage` is idempotent, a no-op when there are
no pages, clamps its argument into `[0, totalPages - 1]` while leaving the
collection alone, and out-of-range arguments land where the clamped
boundary does: `goToPage (-5)` equals `goToPage 0`, and (whenever 10000 is
at or past the last page) `goToPage 10000` equals
`goToPage (totalPages - 1)`. -/
theorem c6_go_to_page (s : ImageGrid) (n : Int) :
    goToPage (goToPage s n) n = goToPage s n ∧
    (pageCount s = 0 → goToPage s n = s) ∧
    (0 < pageCount s →
      ((goToPage s n).current_page : Int) =
        min (max n 0) ((pageCount s : Int) - 1) ∧
      (goToPage s n).image_paths = s.image_paths) ∧
    goToPage s (-5) = goToPage s 0 ∧
    (pageCount s ≤ 10001 →
      goToPage s 10000 = goToPage s ((pageCount s : Int) - 1)) := by
  have hpcg := pageCount_goToPage s n
  refine ⟨?_, fun h => goToPage_zero s n h, fun h => ?_, ?_, fun hle => ?_⟩
  · by_cases h : 0 < pageCount s
    · have h2 : 0 < pageCount (goToPage s n) := by rw [hpcg]; exact h
      rw [goToPage_current _ _ h2, hpcg, goToPage_current _ _ h]
    · rw [goToPage_zero s n (by omega), goToPage_zero s n (by omega)]
  · rw [goToPage_current s n h]
    refine ⟨?_, rfl⟩
    have h1 : (0 : Int) ≤ max n 0 := le_max_right n 0
    have h2 : (0 : Int) ≤ (pageCount s : Int) - 1 := by omega
    exact Int.toNat_of_nonneg (le_min h1 h2)
  · by_cases h : 0 < pageCount s
    · have h5 : max (-5 : Int) 0 = max (0 : Int) 0 := by decide
      rw [goToPage_current s (-5) h, goToPage_current s 0 h, h5]
    · rw [goToPage_zero s (-5) (by omega), goToPage_zero s 0 (by omega)]
  · by_cases h : 0 < pageCount s
    · have hval :
          min (max (10000 : Int) 0) ((pageCount s : Int) - 1) =
            min (max ((pageCount s : Int) - 1) 0) ((pageCount s : Int) - 1) := by
        have h1 : max (10000 : Int) 0 = 10000 := by decide
        have h2 : ((pageCount s : Int) - 1) ≤ 10000 := by omega
        have h3 : (0 : Int) ≤ (pageCount s : Int) - 1 := by omega
        rw [h1, min_eq_right h2, max_eq_left h3, min_self]
      rw [goToPage_current s 10000 h,
        goToPage_current s ((pageCount s : Int) - 1) h, hval]
    · rw [goToPage_zero s 10000 (by omega),
        goToPage_zero s ((pageCount s : Int) - 1) (by omega)]

/-- Witness for C6 on the 20-item, capacity-9 instance (3 pages):
requesting page 10000 from page 1 lands on the clamped page 2. -/
theorem c6_go_to_page_witness :
    goToPage ⟨items20, 1, 9⟩ 10000 = goToPage ⟨items20, 1, 9⟩ 2 := by
  have h := (c6_go_to_page ⟨items20, 1, 9⟩ 10000).2.2.2.2 (by decide)
  have hpc : (pageCount ⟨items20, 1, 9⟩ : Int) - 1 = 2 := by decide
  rw [hpc] at h
  exact h

/-- C7. In every reachable state the current page lies in
`[0, max(totalPages - 1, 0)]`, the invariant is preserved by every
operation (collection replacement, goToPage, next, prev, first, last), and
replacing the collection resets the current page to 0. -/
theorem c7_invariant (cap : Nat) (s : ImageGrid) (hcap : 0 < cap)
    (h : Reachable cap s) :
    Inv s ∧
    (∀ paths, Inv (open_images s paths)) ∧
    Inv (next_page s) ∧
    Inv (prev_page s) ∧
    Inv (first_page s) ∧
    Inv (last_page s) ∧
    (∀ n, Inv (goToPage s n)) ∧
    (∀ paths, paths ≠ [] → (open_images s paths).current_page = 0) := by
  refine ⟨inv_of_reachable cap hcap s h,
    fun paths => inv_of_reachable cap hcap _ (Reachable.step_open s paths h),
    inv_of_reachable cap hcap _ (Reachable.step_next s h),
    inv_of_reachable cap hcap _ (Reachable.step_prev s h),
    inv_of_reachable cap hcap _ (Reachable.step_first s h),
    inv_of_reachable cap hcap _ (Reachable.step_last s h),
    fun n => inv_of_reachable cap hcap _ (Reachable.step_goto s n h),
    fun paths hp => ?_⟩
  unfold open_images
  rw [if_neg hp]

/-- Witness for C7 at the reachable empty initial state. -/
theorem c7_invariant_witness :
    Inv (initGrid 9) ∧
    (open_images (initGrid 9) items20).current_page = 0 := by
  have h := c7_invariant 9 (initGrid 9) (by decide) Reachable.init
  exact ⟨h.1, h.2.2.2.2.2.2.2 items20 (by decide)⟩

/-- C8. Concrete 3x3 scenario (pageCapacity 9) with 20 items, after
navigating to page 2: three pages in total, cells 0 and 1 show items 18 and
19, cells 2 through 8 are the empty sentinel, Next is disabled and Prev is
enabled. -/
theorem c8_concrete_scenario :
    pageCount scenario_state = 3 ∧
    scenario_state.current_page = 2 ∧
    scenario_state.image_paths = items20 ∧
    cellContent scenario_state 0 = some "p18" ∧
    cellContent scenario_state 1 = some "p19" ∧
    cellContent scenario_state 2 = none ∧
    cellContent scenario_state 3 = none ∧
    cellContent scenario_state 4 = none ∧
    cellContent scenario_state 5 = none ∧
    cellContent scenario_state 6 = none ∧
    cellContent scenario_state 7 = none ∧
    cellContent scenario_state 8 = none ∧
    canGoNext scenario_state = false ∧
    canGoPrev scenario_state = true := by
  decide

/-- C9. No operation has a failure state: `cellContent` agrees with plain
list lookup at the absolute position for every index (even outside
`[0, pageCapacity)`, where the spec treats the call as an unchecked
contract precondition — the result is still a value, never an error);
`goToPage` clamps out-of-range requests into the valid range instead of
failing; and the empty collection is a valid state in which every
operation completes and returns the state unchanged. -/
theorem c9_totality (s : ImageGrid) (n : Int) (i : Nat) :
    cellContent s i =
      s.image_paths.get? (s.current_page * s.images_per_page + i) ∧
    (0 < pageCount s →
      (goToPage s n).image_paths = s.image_paths ∧
      (goToPage s n).current_page + 1 ≤ pageCount s) ∧
    (pageCount s = 0 → goToPage s n = s) ∧
    (s.image_paths = [] → s.current_page = 0 →
      pageCount s = 0 ∧
      cellContent s i = none ∧
      next_page s = s ∧
      prev_page s = s ∧
      first_page s = s ∧
      last_page s = s ∧
      open_images s [] = s) := by
  refine ⟨?_, fun h => ?_, fun h => goToPage_zero s n h, fun he hcp => ?_⟩
  · unfold cellContent
    by_cases h : s.current_page * s.images_per_page + i < s.image_paths.length
    · rw [if_pos h]
    · rw [if_neg h, List.get?_eq_none.mpr (by omega)]
  · rw [goToPage_current s n h]
    refine ⟨rfl, ?_⟩
    have hmin : min (max n 0) ((pageCount s : Int) - 1) ≤
        (pageCount s : Int) - 1 := min_le_right _ _
    simp only
    omega
  · obtain ⟨paths, cp, capv⟩ := s
    simp only at he hcp
    subst he
    subst hcp
    refine ⟨?_, ?_, ?_, ?_, rfl, ?_, rfl⟩
    · simp [pageCount]
    · simp [cellContent]
    · unfold next_page
      rw [if_neg (by simp [ceil_div_zero])]
    · unfold prev_page
      rw [if_neg (by simp)]
    · unfold last_page
      rw [if_neg (by simp)]

/-- Witness for C9 at the empty initial state and index 0. -/
theorem c9_totality_witness :
    next_page (initGrid 9) = initGrid 9 ∧
    prev_page (initGrid 9) = initGrid 9 ∧
    cellContent (initGrid 9) 0 = none := by
  have h := (c9_totality (initGrid 9) 0 0).2.2.2 rfl rfl
  exact ⟨h.2.2.1, h.2.2.2.1, h.2.1⟩

/-- C10. On reachable states, `next_page` followed by `prev_page` is the
identity whenever the next-page guard holds, and `prev_page` followed by
`next_page` is the identity whenever the current page is positive. -/
theorem c10_next_prev_inverse (cap : Nat) (s : ImageGrid) (hcap : 0 < cap)
    (h : Reachable cap s) :
    ((s.current_page : Int) <
        (ceil_div s.image_paths.length s.images_per_page : Int) - 1 →
      prev_page (next_page s) = s) ∧
    (0 < s.current_page → next_page (prev_page s) = s) := by
  obtain ⟨hc, he, hb⟩ := reachable_bound cap hcap s h
  obtain ⟨paths, cp, capv⟩ := s
  have he2 : paths = [] → cp = 0 := he
  have hb2 : paths ≠ [] → cp + 1 ≤ ceil_div paths.length cap := hb
  have hc2 : capv = cap := hc
  constructor
  · intro hg
    have e1 : next_page ⟨paths, cp, capv⟩ = ⟨paths, cp + 1, capv⟩ := by
      unfold next_page
      rw [if_pos hg]
    rw [e1]
    unfold prev_page
    rw [if_pos (by simp)]
    simp
  · intro hcp
    have hcp2 : 0 < cp := hcp
    have hne : paths ≠ [] := by
      intro h2
      have := he2 h2
      omega
    have hbb : cp + 1 ≤ ceil_div paths.length capv := by
      rw [hc2]
      exact hb2 hne
    have e1 : prev_page ⟨paths, cp, capv⟩ = ⟨paths, cp - 1, capv⟩ := by
      unfold prev_page
      rw [if_pos hcp]
    rw [e1]
    have hg2 : ((cp - 1 : Nat) : Int) <
        ((ceil_div paths.length capv : Nat) : Int) - 1 := by omega
    have e2 : next_page ⟨paths, cp - 1, capv⟩ = ⟨paths, cp - 1 + 1, capv⟩ := by
      unfold next_page
      split
      · rfl
      · rename_i hgf
        exact absurd hg2 hgf
    rw [e2]
    have e3 : cp - 1 + 1 = cp := by omega
    rw [e3]

/-- Witness for C10: on the 20-item grid, Next then Prev from page 0
returns to page 0, and Prev then Next from page 1 returns to page 1. -/
theorem c10_next_prev_inverse_witness :
    prev_page (next_page (open_images (initGrid 9) items20)) =
      open_images (initGrid 9) items20 ∧
    next_page (prev_page (next_page (open_images (initGrid 9) items20))) =
      next_page (open_images (initGrid 9) items20) := by
  have r0 : Reachable 9 (open_images (initGrid 9) items20) :=
    Reachable.step_open _ _ Reachable.init
  have r1 : Reachable 9 (next_page (open_images (initGrid 9) items20)) :=
    Reachable.step_next _ r0
  exact ⟨(c10_next_prev_inverse 9 _ (by decide) r0).1 (by decide),
    (c10_next_prev_inverse 9 _ (by decide) r1).2 (by decide)⟩

end ImageViewer
